import Mathlib

/-!
Verification of the `comptime` compile-time expression evaluator.

The development shallowly embeds the two Rust source files of the crate:

* `src/src/lib.rs` — the expression-form entry point `comptime!`
  (`comptime`, `filter_rustc_args`, `merge_externs`);
* `src/src/comptime_impl.rs` — the declaration-form entry point
  `#[comptime_fn]` (`comptime_impl`, `cleanup`, and its copies of
  `filter_rustc_args` / `merge_externs`).

Command-line arguments are `List String`; the filesystem, subprocesses and
the system clock are modelled as explicit oracle inputs to the pipeline
functions.  Machine-level hashing (Rust's `DefaultHasher`) is modelled as an
abstract hash function parameter: the embedding records exactly which data
the source feeds to the hasher, which is all the naming claims depend on.
-/

namespace Comptime

/-! ## Argument Reconstructor (`filter_rustc_args`)

`src/src/lib.rs` lines 175–196 and `src/src/comptime_impl.rs` lines 170–191
(the two copies are textually identical).  The Rust loop carries a `skip`
flag, initialized to `true` so that the first argument (the invoked
program's path) is dropped, and set whenever a `--crate-type`,
`--crate-name` or `--extern` flag is seen so that the following value is
dropped with it. -/

/-- Rust `str::starts_with`, evaluated structurally on the character
list. -/
def strBeginsWith (s pre : String) : Bool :=
  pre.data.isPrefixOf s.data

/-- Rust `str::ends_with`, evaluated structurally on the character list. -/
def strEndsWith (s suf : String) : Bool :=
  suf.data.isSuffixOf s.data

/-- Rust `str::split(c)` on the character list: always returns at least one
(possibly empty) group. -/
def splitOnChar (c : Char) : List Char → List (List Char)
  | [] => [[]]
  | a :: rest =>
    let r := splitOnChar c rest
    if a == c then [] :: r
    else match r with
      | [] => [[a]]
      | g :: gs => (a :: g) :: gs

/-- The test selecting the flags whose following value is dropped with them
(`arg == "--crate-type" || arg == "--crate-name" || arg == "--extern"`). -/
def isPairFlag (a : String) : Bool :=
  a == "--crate-type" || a == "--crate-name" || a == "--extern"

/-- The test selecting the single arguments dropped on their own
(`.rs` positionals, `--test`, `rustc`, `--emit*`). -/
def isUnitDrop (a : String) : Bool :=
  strEndsWith a ".rs" || a == "--test" || a == "rustc"
    || strBeginsWith a "--emit"

/-- One step of the `filter_rustc_args` loop: `skip` is the Rust `skip`
flag at loop entry. -/
def filterGo : Bool → List String → List String
  | _, [] => []
  | true, _ :: rest => filterGo false rest
  | false, arg :: rest =>
    if isPairFlag arg then filterGo true rest
    else if isUnitDrop arg then filterGo false rest
    else arg :: filterGo false rest

/-- `filter_rustc_args` from the source: the loop starts with `skip = true`,
so the first argument is always dropped. -/
def filter_rustc_args (args : List String) : List String :=
  filterGo true args

/-- The fixed flags both entry points push right after filtering
(`src/src/lib.rs` lines 118–121, `src/src/comptime_impl.rs` lines 84–87). -/
def fixedCrateFlags : List String :=
  ["--crate-name", "comptime_bin", "--crate-type", "bin"]

/-- The spec's reading of the filter as pair-dropping recursion: drop each
crate-type/crate-name/extern flag together with its immediately following
value, drop `.rs` positionals, `--test`, `rustc` and `--emit*`, keep the
rest in order.  (The first argument is assumed already removed.) -/
def dropPairsSpec : List String → List String
  | [] => []
  | [arg] => if isPairFlag arg then [] else if isUnitDrop arg then [] else [arg]
  | arg :: b :: rest =>
    if isPairFlag arg then dropPairsSpec rest
    else if isUnitDrop arg then dropPairsSpec (b :: rest)
    else arg :: dropPairsSpec (b :: rest)

lemma filterGo_false_eq_dropPairsSpec (args : List String) :
    filterGo false args = dropPairsSpec args := by
  induction args using dropPairsSpec.induct with
  | case1 => rfl
  | case2 arg h1 => simp [filterGo, dropPairsSpec, h1]
  | case3 arg h1 h2 => simp [filterGo, dropPairsSpec, h1, h2]
  | case4 arg h1 h2 => simp [filterGo, dropPairsSpec, h1, h2]
  | case5 arg b rest h1 ih => simp [filterGo, dropPairsSpec, h1, ih]
  | case6 arg b rest h1 h2 ih =>
    have hstep : filterGo false (arg :: b :: rest) = filterGo false (b :: rest) := by
      simp [filterGo, h1, h2]
    rw [hstep, ih]
    simp [dropPairsSpec, h1, h2]
  | case7 arg b rest h1 h2 ih =>
    have hstep : filterGo false (arg :: b :: rest)
        = arg :: filterGo false (b :: rest) := by
      simp [filterGo, h1, h2]
    rw [hstep, ih]
    simp [dropPairsSpec, h1, h2]

lemma filter_rustc_args_eq_dropPairsSpec (args : List String) :
    filter_rustc_args args = dropPairsSpec args.tail := by
  cases args with
  | nil => rfl
  | cons a rest =>
    show filterGo false rest = dropPairsSpec rest
    exact filterGo_false_eq_dropPairsSpec rest

/-- Every element emitted by the filter loop survives none of the drop
tests: it is not one of the paired flags, does not end in `.rs`, is not
`--test` or `rustc`, and does not start with `--emit`. -/
lemma filterGo_mem_survivor {skip : Bool} {args : List String} {x : String}
    (hx : x ∈ filterGo skip args) :
    x ≠ "--crate-type" ∧ x ≠ "--crate-name" ∧ x ≠ "--extern" ∧
      strEndsWith x ".rs" = false ∧ x ≠ "--test" ∧ x ≠ "rustc" ∧
      strBeginsWith x "--emit" = false := by
  induction args generalizing skip with
  | nil => simp [filterGo] at hx
  | cons a rest ih =>
    cases skip with
    | true =>
      simp only [filterGo] at hx
      exact ih hx
    | false =>
      cases h1 : isPairFlag a with
      | true =>
        simp only [filterGo, h1, if_true] at hx
        exact ih hx
      | false =>
        cases h2 : isUnitDrop a with
        | true =>
          simp only [filterGo, h1, h2, Bool.false_eq_true, if_false,
            if_true] at hx
          exact ih hx
        | false =>
          simp only [filterGo, h1, h2, Bool.false_eq_true, if_false] at hx
          rcases List.mem_cons.mp hx with rfl | hx
          · simp only [isPairFlag, isUnitDrop, Bool.or_eq_false_iff,
              beq_eq_false_iff_ne, ne_eq] at h1 h2
            obtain ⟨⟨hA, hB⟩, hC⟩ := h1
            obtain ⟨⟨⟨hrs, ht⟩, hr⟩, he⟩ := h2
            exact ⟨hA, hB, hC, hrs, ht, hr, he⟩
          · exact ih hx

lemma filterGo_sublist (skip : Bool) (args : List String) :
    (filterGo skip args).Sublist args := by
  induction args generalizing skip with
  | nil => simp [filterGo]
  | cons a rest ih =>
    cases skip with
    | true =>
      simp only [filterGo]
      exact List.Sublist.cons a (ih false)
    | false =>
      cases h1 : isPairFlag a with
      | true =>
        simp only [filterGo, h1, if_true]
        exact List.Sublist.cons a (ih true)
      | false =>
        cases h2 : isUnitDrop a with
        | true =>
          simp only [filterGo, h1, h2, Bool.false_eq_true, if_false, if_true]
          exact List.Sublist.cons a (ih false)
        | false =>
          simp only [filterGo, h1, h2, Bool.false_eq_true, if_false]
          exact List.Sublist.cons₂ a (ih false)

lemma count_filter_rustc_args_crate_type (args : List String) :
    (filter_rustc_args args).count "--crate-type" = 0 := by
  rw [List.count_eq_zero]
  intro h
  exact (filterGo_mem_survivor h).1 rfl

lemma count_filter_rustc_args_crate_name (args : List String) :
    (filter_rustc_args args).count "--crate-name" = 0 := by
  rw [List.count_eq_zero]
  intro h
  exact (filterGo_mem_survivor h).2.1 rfl

/-- C9: the argument reconstructor drops the first argument and behaves as
pair-dropping on the rest; every surviving argument passes none of the drop
tests and arguments are kept in order (sublist); after the fixed synthetic
crate-name/crate-type flags are appended, the list holds exactly one
`--crate-type` and one `--crate-name` declaration, each followed by the
fixed synthetic value; the empty argument list degrades to the fixed flags
alone. -/
theorem filter_rustc_args_spec (args : List String) :
    filter_rustc_args args = dropPairsSpec args.tail ∧
    (filter_rustc_args args).Sublist args.tail ∧
    (∀ x ∈ filter_rustc_args args,
      x ≠ "--crate-type" ∧ x ≠ "--crate-name" ∧ x ≠ "--extern" ∧
        strEndsWith x ".rs" = false ∧ x ≠ "--test" ∧ x ≠ "rustc" ∧
        strBeginsWith x "--emit" = false) ∧
    (filter_rustc_args args ++ fixedCrateFlags).count "--crate-type" = 1 ∧
    (filter_rustc_args args ++ fixedCrateFlags).count "--crate-name" = 1 ∧
    filter_rustc_args [] ++ fixedCrateFlags = fixedCrateFlags := by
  refine ⟨filter_rustc_args_eq_dropPairsSpec args, ?_, ?_, ?_, ?_, rfl⟩
  · cases args with
    | nil => simp [filter_rustc_args, filterGo]
    | cons a rest => exact filterGo_sublist false rest
  · intro x hx
    exact filterGo_mem_survivor hx
  · rw [List.count_append, count_filter_rustc_args_crate_type]
    decide
  · rw [List.count_append, count_filter_rustc_args_crate_name]
    decide

/-! ## Dependency Merger (`merge_externs`)

`src/src/lib.rs` lines 198–248 and `src/src/comptime_impl.rs` lines
194–291.  The two copies have the same successful behaviour; on malformed
input `lib.rs` panics through `unwrap` and `comptime_impl.rs` panics after
calling `cleanup`—both are modelled as `Except.error`.  Directory entries
are modelled as filename plus creation time (`metadata().created()` is
modelled as always readable); the `HashMap` is an association list whose
`insert` keeps one binding per key. -/

/-- Rust `s.split('=')`: the part before the first `=`, and the part
between the first and second `=` when a `=` exists
(`split.next()` / `split.next()`). -/
def splitVal (s : String) : String × Option String :=
  match splitOnChar '=' s.data with
  | [] => (s, none)
  | [a] => (String.mk a, none)
  | a :: b :: _ => (String.mk a, some (String.mk b))

/-- The last path component (Rust `Path::file_name`, simplified to the text
after the last `/`). -/
def fileNameOf (p : String) : String :=
  String.mk ((splitOnChar '/' p.data).getLastD [])

/-- Rust `Path::extension`: the part of the file name after the last dot,
defined only when the part before that dot is nonempty. -/
def pathExtension (p : String) : Option String :=
  match splitOnChar '.' (fileNameOf p).data with
  | [] => none
  | [_] => none
  | parts =>
    if List.intercalate ['.'] parts.dropLast = [] then none
    else some (String.mk (parts.getLastD []))

/-- The dependency table: one artifact path per library name. -/
abbrev DepTable := List (String × String)

instance {e a : Type} [DecidableEq e] [DecidableEq a] :
    DecidableEq (Except e a) := fun x y =>
  match x, y with
  | .ok v, .ok w =>
    if h : v = w then isTrue (by rw [h]) else isFalse (by simp [h])
  | .error v, .error w =>
    if h : v = w then isTrue (by rw [h]) else isFalse (by simp [h])
  | .ok _, .error _ => isFalse (by simp)
  | .error _, .ok _ => isFalse (by simp)

/-- `HashMap::insert`: overwrite any existing binding for the key. -/
def insertOver (t : DepTable) (k v : String) : DepTable :=
  (k, v) :: t.filter (fun p => p.1 != k)

/-- `Entry::Vacant` insert: bind the key only when it is absent. -/
def insertVacant (t : DepTable) (k v : String) : DepTable :=
  match t.lookup k with
  | some _ => t
  | none => (k, v) :: t

/-- First pass of `merge_externs`: scan the arguments with the
`next_is_extern` flag, split each value following `--extern` into name and
path, fail when the path is missing or has no extension, and record
`name → path` when the extension is `rlib`.  The flag is recomputed from
every argument, exactly as `next_is_extern = arg == "--extern"` does. -/
def explicitGo : Bool → DepTable → List String → Except String DepTable
  | _, t, [] => Except.ok t
  | isExt, t, arg :: rest =>
    if isExt then
      match (splitVal arg).2 with
      | none => Except.error "Failed to get the path of library"
      | some p =>
        match pathExtension p with
        | none => Except.error "Failed to get the extension"
        | some ext =>
          explicitGo (arg == "--extern")
            (if ext == "rlib" then insertOver t (splitVal arg).1 p else t) rest
    else
      explicitGo (arg == "--extern") t rest

/-- The explicit-declaration pass over a full argument list
(`next_is_extern` starts out false). -/
def explicitDeps (args : List String) : Except String DepTable :=
  explicitGo false [] args

/-- A directory entry of the dependency output directory: file name and
creation time. -/
structure DirEntry where
  fname : String
  created : Nat
deriving Repr, DecidableEq

/-- The directory scan filter: keep entries named `lib*.rlib`. -/
def rlibFilter (es : List DirEntry) : List DirEntry :=
  es.filter (fun e => strBeginsWith e.fname "lib" && strEndsWith e.fname ".rlib")

/-- The descending-by-creation-time order used through
`sort_by_key(Reverse(created))`: `a` comes no later than `b` when `a` was
created no earlier. -/
def createdGE (a b : DirEntry) : Prop :=
  b.created ≤ a.created

instance : DecidableRel createdGE :=
  fun a b => Nat.decLe b.created a.created

instance : IsTotal DirEntry createdGE :=
  ⟨fun a b => Nat.le_total b.created a.created⟩

instance : IsTrans DirEntry createdGE :=
  ⟨fun _ _ _ hab hbc => le_trans hbc hab⟩

/-- `sort_by_key(|de| Reverse(de.created()))`: Rust's `sort_by_key` is a
stable sort, and a stable sort against a total preorder has a unique
result, so the stable insertion sort is an exact model of it. -/
def sortByCreatedDesc (es : List DirEntry) : List DirEntry :=
  es.insertionSort createdGE

/-- Library name from an artifact file name: `rsplitn(2, '-').nth(1)`, the
part before the last `-`; `none` (a panic in the source) when the name has
no `-`. -/
def libNameOf (fname : String) : Option String :=
  match splitOnChar '-' fname.data with
  | [] => none
  | [_] => none
  | parts => some (String.mk (List.intercalate ['-'] parts.dropLast))

/-- `DirEntry::path()`: the scanned directory joined with the file name. -/
def entryPath (depsDir : String) (e : DirEntry) : String :=
  depsDir ++ "/" ++ e.fname

/-- Second pass of `merge_externs`: walk the sorted entries, skip names not
ending in `.rlib`, fail when a file name has no `-`, and insert
`libname → path` only when the name is vacant. -/
def discoveredGo (depsDir : String) :
    DepTable → List DirEntry → Except String DepTable
  | t, [] => Except.ok t
  | t, e :: rest =>
    if strEndsWith e.fname ".rlib" then
      match libNameOf e.fname with
      | none => Except.error "Lib name contained no dash"
      | some name =>
        discoveredGo depsDir (insertVacant t name (entryPath depsDir e)) rest
    else
      discoveredGo depsDir t rest

/-- The final dependency table of `merge_externs`: explicit pass, then the
sorted directory scan. -/
def merge_externs_table (depsDir : String) (args : List String)
    (entries : List DirEntry) : Except String DepTable := do
  let t0 ← explicitDeps args
  discoveredGo depsDir t0 (sortByCreatedDesc (rlibFilter entries))

/-- `lib_name.strip_prefix("lib").unwrap_or(lib_name)` from
`src/src/comptime_impl.rs` line 285 (for names that do start with `lib`,
`src/src/lib.rs` line 244 computes the same suffix). -/
def stripLibPre (s : String) : String :=
  if strBeginsWith s "lib" then String.mk (s.data.drop 3) else s

/-- The emitted flag pairs, one `--extern name=path` pair per table
entry. -/
def mergedPairs (t : DepTable) : List (String × String) :=
  t.map (fun p => ("--extern", stripLibPre p.1 ++ "=" ++ p.2))

/-- An entry the second pass would record under `name`: its file name ends
in `.rlib` and parses to that library name. -/
def entryMatches (name : String) (e : DirEntry) : Bool :=
  strEndsWith e.fname ".rlib" && (libNameOf e.fname == some name)

lemma lookup_insertVacant_of_some {t : DepTable} {name path k v : String}
    (h : t.lookup name = some path) :
    (insertVacant t k v).lookup name = some path := by
  unfold insertVacant
  cases hk : t.lookup k with
  | some _ => exact h
  | none =>
    have hne : (name == k) = false := by
      cases hnk : name == k with
      | true =>
        rw [eq_of_beq hnk] at h
        rw [h] at hk
        cases hk
      | false => rfl
    rw [List.lookup_cons, hne]
    exact h

lemma discoveredGo_preserves {depsDir name path : String} :
    ∀ {es : List DirEntry} {t t' : DepTable},
    discoveredGo depsDir t es = Except.ok t' →
    t.lookup name = some path → t'.lookup name = some path := by
  intro es
  induction es with
  | nil =>
    intro t t' hok h
    rw [discoveredGo] at hok
    cases hok
    exact h
  | cons e rest ih =>
    intro t t' hok h
    rw [discoveredGo] at hok
    by_cases hrl : strEndsWith e.fname ".rlib" = true
    · rw [if_pos hrl] at hok
      cases hn : libNameOf e.fname with
      | none => rw [hn] at hok; cases hok
      | some n =>
        rw [hn] at hok
        exact ih hok (lookup_insertVacant_of_some h)
    · rw [if_neg hrl] at hok
      exact ih hok h

lemma discoveredGo_lookup_of_none {depsDir name : String} :
    ∀ {es : List DirEntry} {t t' : DepTable},
    discoveredGo depsDir t es = Except.ok t' →
    t.lookup name = none →
    t'.lookup name = (es.find? (entryMatches name)).map (entryPath depsDir) := by
  intro es
  induction es with
  | nil =>
    intro t t' hok h
    rw [discoveredGo] at hok
    cases hok
    simpa using h
  | cons e rest ih =>
    intro t t' hok h
    rw [discoveredGo] at hok
    by_cases hrl : strEndsWith e.fname ".rlib" = true
    · rw [if_pos hrl] at hok
      cases hn : libNameOf e.fname with
      | none => rw [hn] at hok; cases hok
      | some n =>
        rw [hn] at hok
        by_cases hname : n = name
        · subst hname
          have hmatch : entryMatches n e = true := by
            simp [entryMatches, hrl, hn]
          have hins : (insertVacant t n (entryPath depsDir e)).lookup n
              = some (entryPath depsDir e) := by
            unfold insertVacant
            rw [h, List.lookup_cons]
            simp
          rw [List.find?_cons_of_pos _ hmatch, Option.map_some']
          exact discoveredGo_preserves hok hins
        · have hmatch : entryMatches name e = false := by
            simp only [entryMatches, hn, Bool.and_eq_false_iff]
            right
            simp [hname]
          have hvac : (insertVacant t n (entryPath depsDir e)).lookup name
              = none := by
            unfold insertVacant
            cases hk : t.lookup n with
            | some _ => exact h
            | none =>
              rw [List.lookup_cons]
              have : (name == n) = false := by
                simp [hname]
                intro hc
                exact absurd hc.symm hname
              rw [this]
              exact h
          rw [List.find?_cons_of_neg _ (by simp [hmatch])]
          exact ih hok hvac
    · rw [if_neg hrl] at hok
      have hmatch : entryMatches name e = false := by
        simp [entryMatches, hrl]
      rw [List.find?_cons_of_neg _ (by simp [hmatch])]
      exact ih hok h

lemma mem_of_lookup_eq_some {t : DepTable} {k v : String}
    (h : t.lookup k = some v) : (k, v) ∈ t := by
  induction t with
  | nil => cases h
  | cons p rest ih =>
    obtain ⟨k', v'⟩ := p
    rw [List.lookup_cons] at h
    cases hk : k == k' with
    | true =>
      rw [hk] at h
      cases h
      rw [eq_of_beq hk]
      exact List.mem_cons_self _ _
    | false =>
      rw [hk] at h
      exact List.mem_cons_of_mem _ (ih h)

lemma merge_externs_table_ok {depsDir : String} {args : List String}
    {entries : List DirEntry} {t0 t : DepTable}
    (h0 : explicitDeps args = Except.ok t0)
    (ht : merge_externs_table depsDir args entries = Except.ok t) :
    discoveredGo depsDir t0 (sortByCreatedDesc (rlibFilter entries))
      = Except.ok t := by
  unfold merge_externs_table at ht
  rw [h0] at ht
  exact ht

/-- C4: a library name bound by the explicit `--extern` pass keeps its
explicitly declared path in the final dependency table, whatever the
directory scan discovers, and the emitted flag list carries exactly that
pair. -/
theorem merge_externs_explicit_precedence
    (depsDir name path : String) (args : List String)
    (entries : List DirEntry) (t0 t : DepTable)
    (h0 : explicitDeps args = Except.ok t0)
    (hname : t0.lookup name = some path)
    (ht : merge_externs_table depsDir args entries = Except.ok t) :
    t.lookup name = some path ∧
      ("--extern", stripLibPre name ++ "=" ++ path) ∈ mergedPairs t := by
  have htab := merge_externs_table_ok h0 ht
  have hl : t.lookup name = some path := discoveredGo_preserves htab hname
  refine ⟨hl, ?_⟩
  exact List.mem_map.mpr ⟨(name, path), mem_of_lookup_eq_some hl, rfl⟩

/-- Closed witness for `merge_externs_explicit_precedence`: the name
`libdemo` is both declared explicitly (path `/x/libdemo-1.rlib`) and
discovered in the scanned directory with a newer artifact; the explicit
path survives. -/
theorem merge_externs_explicit_precedence_witness :
    ([("libdemo", "/x/libdemo-1.rlib")] : DepTable).lookup "libdemo"
        = some "/x/libdemo-1.rlib" ∧
      ("--extern", "demo=/x/libdemo-1.rlib")
        ∈ mergedPairs [("libdemo", "/x/libdemo-1.rlib")] := by
  have h := merge_externs_explicit_precedence "/deps" "libdemo"
    "/x/libdemo-1.rlib"
    ["prog", "--extern", "libdemo=/x/libdemo-1.rlib"]
    [⟨"libdemo-9.rlib", 99⟩]
    [("libdemo", "/x/libdemo-1.rlib")] [("libdemo", "/x/libdemo-1.rlib")]
    (by rfl) (by rfl) (by rfl)
  exact h

lemma sortByCreatedDesc_perm (es : List DirEntry) :
    (sortByCreatedDesc es).Perm es :=
  List.perm_insertionSort createdGE es

lemma sortByCreatedDesc_sorted (es : List DirEntry) :
    List.Pairwise createdGE (sortByCreatedDesc es) :=
  List.sorted_insertionSort createdGE es

/-- In a descending-sorted list, the first entry matching a predicate was
created no earlier than any other matching entry. -/
lemma find?_first_created_max {l : List DirEntry} {e' : DirEntry}
    {name : String}
    (hsorted : List.Pairwise createdGE l)
    (hfind : l.find? (entryMatches name) = some e') :
    ∀ e ∈ l, entryMatches name e = true → e.created ≤ e'.created := by
  obtain ⟨hp, as, bs, rfl, has⟩ := List.find?_eq_some.mp hfind
  intro e he hme
  rw [List.pairwise_append] at hsorted
  obtain ⟨-, hsorted2, -⟩ := hsorted
  rcases List.mem_append.mp he with h | h
  · have := has e h
    rw [hme] at this
    cases this
  · rcases List.mem_cons.mp h with rfl | h
    · exact le_refl _
    · exact (List.pairwise_cons.mp hsorted2).1 e h

/-- C5: when a library name is not bound by the explicit pass, the final
dependency table binds it to the path of a discovered `lib*.rlib` artifact
with that name whose creation time is maximal among all discovered
artifacts for the name. -/
theorem merge_externs_most_recent
    (depsDir name : String) (args : List String) (entries : List DirEntry)
    (t0 t : DepTable) (e : DirEntry)
    (h0 : explicitDeps args = Except.ok t0)
    (hvac : t0.lookup name = none)
    (ht : merge_externs_table depsDir args entries = Except.ok t)
    (he : e ∈ rlibFilter entries)
    (hename : libNameOf e.fname = some name) :
    ∃ e', e' ∈ rlibFilter entries ∧ libNameOf e'.fname = some name ∧
      t.lookup name = some (entryPath depsDir e') ∧
      e.created ≤ e'.created := by
  have htab := merge_externs_table_ok h0 ht
  have hperm := sortByCreatedDesc_perm (rlibFilter entries)
  have hsorted := sortByCreatedDesc_sorted (rlibFilter entries)
  have hes : e ∈ sortByCreatedDesc (rlibFilter entries) :=
    hperm.mem_iff.mpr he
  have hrl : strEndsWith e.fname ".rlib" = true := by
    have h2 := (List.mem_filter.mp he).2
    rw [Bool.and_eq_true] at h2
    exact h2.2
  have hme : entryMatches name e = true := by
    simp [entryMatches, hrl, hename]
  have hlookup := discoveredGo_lookup_of_none htab hvac
  have hfs : ((sortByCreatedDesc (rlibFilter entries)).find?
      (entryMatches name)).isSome = true :=
    List.find?_isSome.mpr ⟨e, hes, hme⟩
  obtain ⟨e', hfind⟩ := Option.isSome_iff_exists.mp hfs
  have he's : e' ∈ sortByCreatedDesc (rlibFilter entries) :=
    List.mem_of_find?_eq_some hfind
  have hpe' := List.find?_some hfind
  have he'name : libNameOf e'.fname = some name := by
    rw [entryMatches, Bool.and_eq_true] at hpe'
    exact beq_iff_eq.mp hpe'.2
  refine ⟨e', hperm.mem_iff.mp he's, he'name, ?_, ?_⟩
  · rw [hlookup, hfind, Option.map_some']
  · exact find?_first_created_max hsorted hfind e hes hme

/-- Closed witness for `merge_externs_most_recent`: two discovered
artifacts named `libdemo`, created at times 3 and 8; the table records the
one created at 8. -/
theorem merge_externs_most_recent_witness :
    ∃ e', e' ∈ rlibFilter [⟨"libdemo-a.rlib", 3⟩, ⟨"libdemo-b.rlib", 8⟩] ∧
      libNameOf e'.fname = some "libdemo" ∧
      (([("libdemo", "/d/libdemo-b.rlib")] : DepTable).lookup "libdemo"
        = some (entryPath "/d" e')) ∧
      (⟨"libdemo-a.rlib", 3⟩ : DirEntry).created ≤ e'.created :=
  merge_externs_most_recent "/d" "libdemo" ["prog"]
    [⟨"libdemo-a.rlib", 3⟩, ⟨"libdemo-b.rlib", 8⟩]
    [] [("libdemo", "/d/libdemo-b.rlib")] ⟨"libdemo-a.rlib", 3⟩
    (by rfl) (by rfl) (by rfl) (by decide) (by decide)

/-- The arguments that stand immediately after an occurrence of
`--extern`, i.e. exactly the values the explicit pass of `merge_externs`
inspects; the flag argument mirrors `next_is_extern`. -/
def externVals : Bool → List String → List String
  | _, [] => []
  | isExt, a :: rest =>
    (if isExt then [a] else []) ++ externVals (a == "--extern") rest

/-- An extern value the explicit pass accepts without panicking: it has an
`=` separator and its path part has a file extension. -/
def validExternVal (s : String) : Bool :=
  match (splitVal s).2 with
  | none => false
  | some p => (pathExtension p).isSome

lemma explicitGo_isOk_iff (args : List String) :
    ∀ (flag : Bool) (t : DepTable),
    (explicitGo flag t args).isOk = true ↔
      ∀ v ∈ externVals flag args, validExternVal v = true := by
  induction args with
  | nil =>
    intro flag t
    simp [explicitGo, externVals, Except.isOk, Except.toBool]
  | cons a rest ih =>
    intro flag t
    cases flag with
    | false =>
      rw [explicitGo, if_neg (by simp)]
      simpa [externVals] using ih (a == "--extern") t
    | true =>
      rw [explicitGo, if_pos rfl]
      cases hsplit : (splitVal a).2 with
      | none =>
        simp only [externVals, if_pos rfl]
        constructor
        · intro h
          simp [Except.isOk, Except.toBool] at h
        · intro h
          have := h a (by simp)
          simp [validExternVal, hsplit] at this
      | some p =>
        cases hext : pathExtension p with
        | none =>
          simp only [hsplit, hext, externVals, if_pos rfl]
          constructor
          · intro h
            simp [Except.isOk, Except.toBool] at h
          · intro h
            have := h a (by simp)
            simp [validExternVal, hsplit, hext] at this
        | some ext =>
          simp only [hsplit, hext, externVals, if_pos rfl]
          have hva : validExternVal a = true := by
            simp [validExternVal, hsplit, hext]
          rw [ih (a == "--extern") _]
          constructor
          · intro h v hv
            rcases List.mem_cons.mp hv with rfl | hv
            · exact hva
            · exact h v hv
          · intro h v hv
            exact h v (List.mem_cons_of_mem _ hv)

/-- C10: the explicit pass of `merge_externs` succeeds exactly when every
argument standing right after a `--extern` flag has an `=` separator and a
path with a file extension; a bare crate name or an extensionless path is a
fatal panic, and it propagates: the whole merger fails whenever the
explicit pass does. -/
theorem merge_externs_explicit_validation (args : List String) :
    ((explicitDeps args).isOk = true ↔
      ∀ v ∈ externVals false args, validExternVal v = true) ∧
    (∀ (depsDir : String) (entries : List DirEntry),
      (explicitDeps args).isOk = false →
      (merge_externs_table depsDir args entries).isOk = false) := by
  refine ⟨explicitGo_isOk_iff args false [], ?_⟩
  intro depsDir entries h
  unfold merge_externs_table
  cases hd : explicitDeps args with
  | ok t0 =>
    rw [hd] at h
    simp [Except.isOk, Except.toBool] at h
  | error msg => rfl

/-! ## Result values and the Result Splicer

The helper program prints `quote!(#comptime_output)` — the token-level
syntax of the computed value (`src/src/lib.rs` lines 107–111,
`src/src/comptime_impl.rs` line 58) — and the splicer re-parses that text,
falling back to a string literal when parsing fails (`src/src/lib.rs`
lines 159–166, `src/src/comptime_impl.rs` lines 134–141).

The evaluation of the captured block, `quote`'s token printing and
`syn::parse_str`'s expression grammar live outside this repository (rustc,
`quote`, `syn`).  Modelled from the spec: §4.3 requires the helper to print
"the textual syntax representation of the block's result value", §4.5 a
parser of source-level expressions; both are modelled for a core fragment
of values — integers, booleans and strings — with decimal/keyword/quoted
printing and a matching parser. -/

/-- A result value of the modelled core fragment. -/
inductive CValue where
  | int (n : Int)
  | bool (b : Bool)
  | str (s : String)
deriving Repr, DecidableEq

/-- A source-level expression of the modelled core fragment. -/
inductive CExpr where
  | intLit (n : Int)
  | boolLit (b : Bool)
  | strLit (s : String)
  | var (x : String)
  | add (a b : CExpr)
deriving Repr, DecidableEq

/-- A statement of a captured block: a `let`-binding. -/
inductive CStmt where
  | letStmt (x : String) (e : CExpr)
deriving Repr, DecidableEq

/-- A captured block: statements followed by a trailing expression, the
shape `{ stmts; tail }` both entry points wrap
(`fn main() { let result = { ... }; ... }`). -/
structure CBlock where
  stmts : List CStmt
  tail : CExpr
deriving Repr, DecidableEq

/-- Modelled from the spec: expression evaluation in a normal (non-comptime)
context, over an environment of bound variables. -/
def evalExpr (env : List (String × CValue)) : CExpr → Option CValue
  | .intLit n => some (.int n)
  | .boolLit b => some (.bool b)
  | .strLit s => some (.str s)
  | .var x => env.lookup x
  | .add a b =>
    match evalExpr env a, evalExpr env b with
    | some (.int m), some (.int n) => some (.int (m + n))
    | _, _ => none

/-- Modelled from the spec: running the statements of a block in order. -/
def evalStmts (env : List (String × CValue)) :
    List CStmt → Option (List (String × CValue))
  | [] => some env
  | .letStmt x e :: rest =>
    (evalExpr env e).bind fun v => evalStmts ((x, v) :: env) rest

/-- Modelled from the spec: direct evaluation of a captured block. -/
def evalBlock (b : CBlock) : Option CValue :=
  (evalStmts [] b.stmts).bind fun env => evalExpr env b.tail

/-- The decimal digit character of `d`. -/
def digitToChar (d : Nat) : Char :=
  Char.ofNat (48 + d)

/-- The digit value of a decimal digit character. -/
def charToDigit (c : Char) : Option Nat :=
  if 48 ≤ c.toNat ∧ c.toNat ≤ 57 then some (c.toNat - 48) else none

/-- Little-endian decimal digits, fuelled so that it reduces in the
kernel. -/
def digitsGo : Nat → Nat → List Nat
  | 0, _ => []
  | _ + 1, 0 => []
  | fuel + 1, n + 1 => ((n + 1) % 10) :: digitsGo fuel ((n + 1) / 10)

/-- Little-endian decimal digits of `n`. -/
def natDigits (n : Nat) : List Nat :=
  digitsGo n n

lemma digitsGo_eq_digits (fuel n : Nat) (h : n ≤ fuel) :
    digitsGo fuel n = Nat.digits 10 n := by
  induction fuel generalizing n with
  | zero =>
    interval_cases n
    simp [digitsGo]
  | succ f ih =>
    cases n with
    | zero => simp [digitsGo]
    | succ m =>
      rw [digitsGo, Nat.digits_def' (by norm_num) (Nat.succ_pos m)]
      congr 1
      refine ih _ ?_
      have hlt : (m + 1) / 10 < m + 1 := Nat.div_lt_self (Nat.succ_pos m) (by norm_num)
      omega

lemma natDigits_eq_digits (n : Nat) : natDigits n = Nat.digits 10 n :=
  digitsGo_eq_digits n n le_rfl

/-- The decimal rendering of a natural number. -/
def natToChars (n : Nat) : List Char :=
  if n = 0 then ['0'] else ((natDigits n).map digitToChar).reverse

/-- Modelled from the spec: `quote`'s printing of a core-fragment value as
valid source-level literal syntax — decimal integers (with a leading `-`
when negative), the keywords `true`/`false`, and quoted strings with `"`
and `\` escaped. -/
def escapeChars : List Char → List Char
  | [] => []
  | c :: rest =>
    if c = '"' ∨ c = '\\' then '\\' :: c :: escapeChars rest
    else c :: escapeChars rest

/-- Modelled from the spec: the printed syntax of a value. -/
def printValue : CValue → String
  | .int n =>
    if n < 0 then String.mk ('-' :: natToChars n.natAbs)
    else String.mk (natToChars n.natAbs)
  | .bool b => if b then "true" else "false"
  | .str s => String.mk ('"' :: (escapeChars s.data ++ ['"']))

/-- Undo `escapeChars`; `none` when the text is not a valid string-literal
interior (a stray `"` or a trailing `\`). -/
def unescapeChars : List Char → Option (List Char)
  | [] => some []
  | [c] => if c = '\\' ∨ c = '"' then none else some [c]
  | c :: c2 :: rest =>
    if c = '\\' then
      if c2 = '"' ∨ c2 = '\\' then (unescapeChars rest).map (c2 :: ·) else none
    else if c = '"' then none
    else (unescapeChars (c2 :: rest)).map (c :: ·)

/-- Parse the text after an opening quote: it must close with `"` and have
a valid interior. -/
def parseStrTail (l : List Char) : Option String :=
  if l.getLast? = some '"' then
    (unescapeChars l.dropLast).map (fun cs => String.mk cs)
  else none

/-- Parse a nonempty all-digit character list as a natural number. -/
def parseDigits (l : List Char) : Option Nat :=
  if l.isEmpty then none
  else if l.all (fun c => (charToDigit c).isSome) then
    some (l.foldl (fun a c => a * 10 + (charToDigit c).getD 0) 0)
  else none

/-- Modelled from the spec: `syn::parse_str::<syn::Expr>` on the core
fragment — the keywords `true`/`false`, string literals, and decimal
integer literals with an optional leading `-`. -/
def parseCExpr (s : String) : Option CExpr :=
  if s.data = "true".data then some (.boolLit true)
  else if s.data = "false".data then some (.boolLit false)
  else if s.data.head? = some '"' then (parseStrTail s.data.tail).map .strLit
  else if s.data.head? = some '-' then
    (parseDigits s.data.tail).map (fun n => CExpr.intLit (-(Int.ofNat n)))
  else (parseDigits s.data).map (fun n => CExpr.intLit (Int.ofNat n))

/-- The literal expression whose evaluation is the given value. -/
def litOfValue : CValue → CExpr
  | .int n => .intLit n
  | .bool b => .boolLit b
  | .str s => .strLit s

/-- The Result Splicer (`src/src/lib.rs` lines 159–166,
`src/src/comptime_impl.rs` lines 134–141): parse the helper output as an
expression, and fall back to a string literal holding the whole output
when parsing fails. -/
def spliceOutput (out : String) : CExpr :=
  match parseCExpr out with
  | some e => e
  | none => CExpr.strLit out

lemma charToDigit_digitToChar {d : Nat} (h : d < 10) :
    charToDigit (digitToChar d) = some d := by
  interval_cases d <;> decide

lemma natDigits_lt {n d : Nat} (hd : d ∈ natDigits n) : d < 10 := by
  rw [natDigits_eq_digits] at hd
  exact Nat.digits_lt_base (by norm_num) hd

lemma natToChars_digit {n : Nat} {c : Char} (hc : c ∈ natToChars n) :
    (charToDigit c).isSome = true := by
  rw [natToChars] at hc
  by_cases h : n = 0
  · rw [if_pos h] at hc
    rcases List.mem_singleton.mp hc with rfl
    decide
  · rw [if_neg h] at hc
    rw [List.mem_reverse, List.mem_map] at hc
    obtain ⟨d, hd, rfl⟩ := hc
    rw [charToDigit_digitToChar (natDigits_lt hd)]
    rfl

lemma natToChars_ne_nil (n : Nat) : natToChars n ≠ [] := by
  rw [natToChars]
  by_cases h : n = 0
  · rw [if_pos h]; simp
  · rw [if_neg h]
    intro hcon
    rw [List.reverse_eq_nil_iff] at hcon
    have hd : natDigits n = [] := List.map_eq_nil_iff.mp hcon
    rw [natDigits_eq_digits] at hd
    exact h (Nat.digits_eq_nil_iff_eq_zero.mp hd)

lemma foldl_map_digits (l : List Nat) (acc : Nat) (hl : ∀ d ∈ l, d < 10) :
    ((l.map digitToChar).reverse).foldl
        (fun a c => a * 10 + (charToDigit c).getD 0) acc
      = acc * 10 ^ l.length + Nat.ofDigits 10 l := by
  induction l generalizing acc with
  | nil => simp [Nat.ofDigits]
  | cons d rest ih =>
    rw [List.map_cons, List.reverse_cons, List.foldl_append]
    rw [ih acc (fun x hx => hl x (List.mem_cons_of_mem _ hx))]
    simp only [List.foldl_cons, List.foldl_nil]
    rw [charToDigit_digitToChar (hl d (List.mem_cons_self _ _))]
    rw [Nat.ofDigits_cons, List.length_cons, Option.getD_some, pow_succ]
    ring

lemma parseDigits_natToChars (n : Nat) : parseDigits (natToChars n) = some n := by
  rw [parseDigits]
  rw [if_neg (by simpa [List.isEmpty_iff] using natToChars_ne_nil n)]
  rw [if_pos (by
    rw [List.all_eq_true]
    intro c hc
    exact natToChars_digit hc)]
  congr 1
  by_cases h : n = 0
  · subst h
    rw [natToChars, if_pos rfl]
    decide
  · rw [natToChars, if_neg h]
    rw [foldl_map_digits _ _ (fun d hd => natDigits_lt hd)]
    rw [natDigits_eq_digits, Nat.ofDigits_digits]
    simp

lemma escapeChars_ne_nil {c : Char} {l : List Char} :
    escapeChars (c :: l) ≠ [] := by
  rw [escapeChars]
  by_cases h : c = '"' ∨ c = '\\' <;> simp [h]

lemma unescape_escape (l : List Char) :
    unescapeChars (escapeChars l) = some l := by
  induction l with
  | nil => rfl
  | cons c rest ih =>
    by_cases h : c = '"' ∨ c = '\\'
    · rw [escapeChars, if_pos h]
      rw [unescapeChars, if_pos rfl, if_pos h, ih]
      rfl
    · rw [escapeChars, if_neg h]
      push_neg at h
      cases hE : escapeChars rest with
      | nil =>
        cases hrest : rest with
        | nil =>
          subst hrest
          rw [unescapeChars, if_neg (by tauto)]
        | cons r rs =>
          rw [hrest] at hE
          exact absurd hE escapeChars_ne_nil
      | cons e E2 =>
        rw [unescapeChars, if_neg h.2, if_neg h.1, ← hE, ih]
        rfl

lemma parseStrTail_escape (s : String) :
    parseStrTail (escapeChars s.data ++ ['"']) = some s := by
  rw [parseStrTail, if_pos (List.getLast?_concat _), List.dropLast_concat]
  rw [unescape_escape]
  rfl

lemma parse_printValue (v : CValue) :
    parseCExpr (printValue v) = some (litOfValue v) := by
  cases v with
  | bool b => cases b <;> decide
  | int n =>
    have hdig : ∀ c ∈ natToChars n.natAbs, (charToDigit c).isSome = true :=
      fun _ hc => natToChars_digit hc
    have hchar : ∀ (c : Char), c ∈ natToChars n.natAbs →
        c ≠ 't' ∧ c ≠ 'f' ∧ c ≠ '"' ∧ c ≠ '-' := by
      intro c hc
      have h := hdig c hc
      rw [charToDigit] at h
      by_cases hr : 48 ≤ c.toNat ∧ c.toNat ≤ 57
      · refine ⟨?_, ?_, ?_, ?_⟩ <;> rintro rfl <;> revert hr <;> decide
      · rw [if_neg hr] at h; cases h
    by_cases hneg : n < 0
    · rw [printValue, if_pos hneg]
      rw [parseCExpr]
      rw [if_neg (show ¬('-' :: natToChars n.natAbs = "true".data) by
        intro heq
        have h := congrArg List.head? heq
        rw [List.head?_cons] at h
        exact absurd h (by decide))]
      rw [if_neg (show ¬('-' :: natToChars n.natAbs = "false".data) by
        intro heq
        have h := congrArg List.head? heq
        rw [List.head?_cons] at h
        exact absurd h (by decide))]
      rw [if_neg (show ¬(('-' :: natToChars n.natAbs).head? = some '"') by
        rw [List.head?_cons]
        decide)]
      rw [if_pos (show ('-' :: natToChars n.natAbs).head? = some '-' from
        List.head?_cons)]
      show (parseDigits ('-' :: natToChars n.natAbs).tail).map
          (fun m => CExpr.intLit (-(Int.ofNat m))) = _
      rw [List.tail_cons, parseDigits_natToChars]
      simp only [Option.map_some', Option.some.injEq, litOfValue,
        CExpr.intLit.injEq, Int.ofNat_eq_coe]
      omega
    · rw [printValue, if_neg hneg]
      rw [parseCExpr]
      rw [if_neg (show ¬(natToChars n.natAbs = "true".data) by
        intro heq
        have hm : ('t' : Char) ∈ natToChars n.natAbs := by rw [heq]; decide
        exact (hchar 't' hm).1 rfl)]
      rw [if_neg (show ¬(natToChars n.natAbs = "false".data) by
        intro heq
        have hm : ('f' : Char) ∈ natToChars n.natAbs := by rw [heq]; decide
        exact (hchar 'f' hm).2.1 rfl)]
      rw [if_neg (show ¬((natToChars n.natAbs).head? = some '"') by
        intro heq
        have hm : ('"' : Char) ∈ natToChars n.natAbs :=
          List.mem_of_mem_head? heq
        exact (hchar _ hm).2.2.1 rfl)]
      rw [if_neg (show ¬((natToChars n.natAbs).head? = some '-') by
        intro heq
        have hm : ('-' : Char) ∈ natToChars n.natAbs :=
          List.mem_of_mem_head? heq
        exact (hchar _ hm).2.2.2 rfl)]
      show (parseDigits (natToChars n.natAbs)).map
          (fun m => CExpr.intLit (Int.ofNat m)) = _
      rw [parseDigits_natToChars]
      simp only [Option.map_some', Option.some.injEq, litOfValue,
        CExpr.intLit.injEq, Int.ofNat_eq_coe]
      omega
  | str s =>
    rw [printValue, parseCExpr]
    rw [if_neg (show ¬('"' :: (escapeChars s.data ++ ['"']) = "true".data) by
      intro heq
      have h := congrArg List.head? heq
      rw [List.head?_cons] at h
      exact absurd h (by decide))]
    rw [if_neg (show ¬('"' :: (escapeChars s.data ++ ['"']) = "false".data) by
      intro heq
      have h := congrArg List.head? heq
      rw [List.head?_cons] at h
      exact absurd h (by decide))]
    rw [if_pos (show ('"' :: (escapeChars s.data ++ ['"'])).head? = some '"'
      from List.head?_cons)]
    show (parseStrTail ('"' :: (escapeChars s.data ++ ['"'])).tail).map
        CExpr.strLit = _
    rw [List.tail_cons, parseStrTail_escape]
    rfl

lemma evalExpr_litOfValue (v : CValue) :
    evalExpr [] (litOfValue v) = some v := by
  cases v <;> rfl

/-- C1: round-trip law — when a captured block evaluates to a value whose
printed form is valid expression syntax, the expression the splicer puts
back at the call site evaluates, in a normal (non-comptime) context, to the
same value as direct evaluation of the block. -/
theorem comptime_round_trip (b : CBlock) (v : CValue)
    (hev : evalBlock b = some v)
    (hparse : (parseCExpr (printValue v)).isSome = true) :
    evalExpr [] (spliceOutput (printValue v)) = evalBlock b := by
  rw [hev]
  simp only [spliceOutput, parse_printValue v]
  exact evalExpr_litOfValue v

/-- Closed witness for `comptime_round_trip`: the spec's own scenario,
block `1 + 1`: the helper prints `2`, it parses as the expression `2`, and
the spliced result is the integer `2`. -/
theorem comptime_round_trip_witness :
    evalBlock ⟨[], CExpr.add (.intLit 1) (.intLit 1)⟩ = some (.int 2) ∧
    (parseCExpr (printValue (.int 2))).isSome = true ∧
    evalExpr [] (spliceOutput (printValue (CValue.int 2)))
      = evalBlock ⟨[], CExpr.add (.intLit 1) (.intLit 1)⟩ :=
  ⟨by decide, by decide,
    comptime_round_trip ⟨[], CExpr.add (.intLit 1) (.intLit 1)⟩
      (CValue.int 2) (by decide) (by decide)⟩

/-- C7: the splicer uses the parsed expression exactly when the helper
output parses, and otherwise splices a string literal holding exactly the
output text; the fallback is total — it produces an expression, never an
error. -/
theorem splice_output_spec (out : String) :
    (∀ e, parseCExpr out = some e → spliceOutput out = e) ∧
    (parseCExpr out = none → spliceOutput out = CExpr.strLit out) := by
  constructor
  · intro e he
    simp [spliceOutput, he]
  · intro h
    simp [spliceOutput, h]

/-- Closed witness for `splice_output_spec`: `hello world` does not parse
as an expression and is spliced as the string literal holding exactly that
text. -/
theorem splice_output_spec_witness :
    spliceOutput "hello world" = CExpr.strLit "hello world" :=
  (splice_output_spec "hello world").2 (by decide)

/-! ## Helper file naming

`src/src/lib.rs` lines 98–103: the expression form feeds `DefaultHasher`
only the program text and joins `out_dir` with `comptime-{hash}.rs`.
`src/src/comptime_impl.rs` lines 32–45: the declaration form feeds the
hasher `Instant::now()` and then the block text, and uses
`comptime/comptime-{hash}.rs`.  The hasher itself (SipHash) is outside the
repository; it is an abstract parameter over the exact stream of hashed
atoms, which is what the naming claims are about. -/

/-- One value fed to the `DefaultHasher`. -/
inductive HashAtom where
  | time (t : Nat)
  | text (s : String)
deriving Repr, DecidableEq

/-- Decimal rendering of a number (`format!` of a `u64`). -/
def decimalStr (n : Nat) : String :=
  String.mk (natToChars n)

/-- The helper source file name of an expression-form evaluation running at
time `_now`: the hasher receives only the program text — the time is not
hashed (`src/src/lib.rs` lines 98–103). -/
def exprHelperName (h : List HashAtom → Nat) (_now : Nat) (prog : String) :
    String :=
  "comptime-" ++ decimalStr (h [HashAtom.text prog]) ++ ".rs"

/-- The helper source file path of a declaration-form evaluation running at
time `now`: the hasher receives `Instant::now()` and then the block text
(`src/src/comptime_impl.rs` lines 32–35, 45). -/
def declHelperName (h : List HashAtom → Nat) (now : Nat) (prog : String) :
    String :=
  "comptime/comptime-" ++ decimalStr (h [HashAtom.time now, HashAtom.text prog])
    ++ ".rs"

/-- A demonstration stand-in for `DefaultHasher` (the real SipHash is
outside the repository; the naming claims depend only on which data is
hashed): a fold over an injective-enough atom encoding. -/
def atomCode : HashAtom → Nat
  | .time t => 2 * t
  | .text s => 2 * s.data.length + 1

def demoHash (l : List HashAtom) : Nat :=
  l.foldl (fun a x => a * 151 + atomCode x) 7

lemma natToChars_inj {a b : Nat} (h : natToChars a = natToChars b) :
    a = b := by
  have h1 := parseDigits_natToChars a
  rw [h, parseDigits_natToChars b] at h1
  exact (Option.some.inj h1).symm

lemma wrapName_ne {pre suf : String} {a b : Nat} (hab : a ≠ b) :
    pre ++ decimalStr a ++ suf ≠ pre ++ decimalStr b ++ suf := by
  intro h
  apply hab
  apply natToChars_inj
  have hd := congrArg String.data h
  simp only [String.data_append] at hd
  exact List.append_cancel_left (List.append_cancel_right hd)

/-! ## The two pipelines as state machines

Filesystem, clock and subprocess behaviour are oracle fields of an
environment; each pipeline returns a trace — the temporary files the
evaluation created, the ones it removed, and its exit. -/

/-- A Rust function item as destructured from `syn::ItemFn`
(`src/src/comptime_impl.rs` lines 21–30): attributes, visibility,
signature, body. -/
structure RustFn where
  attrs : List String
  vis : String
  sig : String
  body : CBlock
deriving Repr, DecidableEq

/-- The function the declaration form emits: same shape, body replaced by
one expression. -/
structure RustFnOut where
  attrs : List String
  vis : String
  sig : String
  body : CExpr
deriving Repr, DecidableEq

/-- Rendering of a block back to source text, modelling
`block.to_token_stream().to_string()`. -/
def renderExpr : CExpr → String
  | .intLit n => printValue (.int n)
  | .boolLit b => printValue (.bool b)
  | .strLit s => printValue (.str s)
  | .var x => x
  | .add a b => renderExpr a ++ " + " ++ renderExpr b

def renderStmt : CStmt → String
  | .letStmt x e => "let " ++ x ++ " = " ++ renderExpr e ++ " ; "

def renderBlock (b : CBlock) : String :=
  String.join (b.stmts.map renderStmt) ++ renderExpr b.tail

/-- The `get_arg` closure of both entry points: the argument that follows
the first occurrence of `arg`. -/
def getArgValue : List String → String → Option String
  | [], _ => none
  | a :: rest, arg => if a = arg then rest.head? else getArgValue rest arg

/-- `args.iter().find(|a| a.starts_with("extra-filename=")).map(split('=')
.nth(1)).unwrap_or_default()`. -/
def extraFilenameOf (args : List String) : String :=
  match args.find? (fun a => strBeginsWith a "extra-filename=") with
  | none => ""
  | some a => ((splitVal a).2).getD ""

/-- Outcome of `fs::create_dir("comptime")`. -/
inductive FsResult where
  | ok
  | alreadyExists
  | failed
deriving Repr, DecidableEq

/-- Oracle environment of one declaration-form evaluation. -/
structure DeclEnv where
  args : List String
  now : Nat
  hash : List HashAtom → Nat
  createDirResult : FsResult
  openOk : Bool
  writeOk : Bool
  compileSpawnOk : Bool
  compileExitOk : Bool
  compileStderr : String
  runSpawnOk : Bool
  runExitOk : Bool
  runStderr : String
  runStdout : Option String
  removable : String → Bool
  dirEntries : List DirEntry

/-- How a declaration-form evaluation ends. -/
inductive DeclExit where
  | success (out : RustFnOut)
  | panicked (msg : String)
  | cleanupPanicked (failed : List String)
deriving Repr, DecidableEq

/-- The observable trace of one declaration-form evaluation: temporary
files created, temporary files successfully removed, and the exit. -/
structure DeclTrace where
  created : List String
  removed : List String
  exit : DeclExit
deriving Repr, DecidableEq

/-- A failure path of `comptime_impl` that calls `cleanup(files)` and then
panics with `msg` (`cleanup`, `src/src/comptime_impl.rs` lines 156–166):
`cleanup` runs first, so when a removal fails its own panic — the distinct
diagnostic listing every file that failed to delete — replaces `msg`. -/
def cleanupThenPanic (removable : String → Bool) (created files : List String)
    (msg : String) : DeclTrace :=
  let failed := files.filter (fun f => !(removable f))
  { created := created
    removed := files.filter removable
    exit := if failed.isEmpty then .panicked msg
            else .cleanupPanicked failed }

/-- The declaration-form pipeline `comptime_impl`
(`src/src/comptime_impl.rs` lines 15–155), step for step: hash the clock
and the block text; create the `comptime` directory; create and write the
helper source (pushed onto the cleanup list before the write); only then
look for `--out-dir` (a bare panic, no cleanup); merge dependencies; spawn
rustc (spawn failure cleans up, compile failure panics with the compiler's
stderr and no cleanup); locate and run the helper binary (spawn failure
cleans up, run failure panics with the helper's stderr and no cleanup);
decode stdout (bare panic when not UTF-8); splice; remove both files with
`.ok()`, ignoring removal failures; reassemble the function. -/
def comptime_impl (env : DeclEnv) (f : RustFn) : DeclTrace :=
  let prog := renderBlock f.body
  let comptime_rs := declHelperName env.hash env.now prog
  if env.createDirResult = FsResult.failed then
    cleanupThenPanic env.removable [] [] "Failed to create directory"
  else if env.openOk = false then
    cleanupThenPanic env.removable [] [comptime_rs]
      ("Failed to create " ++ comptime_rs)
  else if env.writeOk = false then
    cleanupThenPanic env.removable [comptime_rs] [comptime_rs]
      ("Failed to write to " ++ comptime_rs)
  else
    match getArgValue env.args "--out-dir" with
    | none =>
      { created := [comptime_rs], removed := []
        exit := .panicked "comptime failed: could not determine rustc out dir." }
    | some outDir =>
      match merge_externs_table outDir env.args env.dirEntries with
      | Except.error msg =>
        cleanupThenPanic env.removable [comptime_rs] [comptime_rs] msg
      | Except.ok _ =>
        if env.compileSpawnOk = false then
          cleanupThenPanic env.removable [comptime_rs] [comptime_rs]
            "Failed to call rustc"
        else if env.compileExitOk = false then
          { created := [comptime_rs], removed := []
            exit := .panicked ("could not compile comptime expr:\n\n"
              ++ env.compileStderr ++ "\n") }
        else
          let comptime_bin := outDir ++ "/comptime_bin"
            ++ extraFilenameOf env.args
          if env.runSpawnOk = false then
            cleanupThenPanic env.removable [comptime_rs, comptime_bin]
              [comptime_rs, comptime_bin] "Failed to execute bin file"
          else if env.runExitOk = false then
            { created := [comptime_rs, comptime_bin], removed := []
              exit := .panicked ("could not run comptime expr:\n\n"
                ++ env.runStderr ++ "\n") }
          else
            match env.runStdout with
            | none =>
              { created := [comptime_rs, comptime_bin], removed := []
                exit := .panicked "comptime expr output was not utf8" }
            | some out =>
              { created := [comptime_rs, comptime_bin]
                removed := [comptime_rs, comptime_bin].filter env.removable
                exit := .success
                  { attrs := f.attrs, vis := f.vis, sig := f.sig
                    body := spliceOutput out } }

/-- Oracle environment of one expression-form evaluation; `now` is the
time at which it runs (never consulted by the code). -/
structure ExprEnv where
  args : List String
  now : Nat
  hash : List HashAtom → Nat
  writeOk : Bool
  compileSpawnOk : Bool
  compileExitOk : Bool
  compileStderr : String
  runSpawnOk : Bool
  runExitOk : Bool
  runStderr : String
  runStdout : Option String
  removable : String → Bool
  dirEntries : List DirEntry

/-- How an expression-form evaluation ends: a spliced expression, an
emitted `compile_error!` (the `err!` macro), or a panic (`.expect`). -/
inductive ExprExit where
  | success (e : CExpr)
  | emitError (msg : String)
  | panicked (msg : String)
deriving Repr, DecidableEq

/-- The observable trace of one expression-form evaluation. -/
structure ExprTrace where
  created : List String
  removed : List String
  exit : ExprExit
deriving Repr, DecidableEq

/-- The expression-form pipeline `comptime` (`src/src/lib.rs` lines
80–172), step for step: look for `--out-dir` first (`err!`, nothing
created); hash the program text (no time salt); write the helper
source (`.expect` panic on failure); merge dependencies (`unwrap` panics,
no cleanup); spawn rustc (`.expect`; compile failure is `err!` with the
compiler's stderr, no file removal); locate and run the helper binary
(`.expect`; run failure is `err!` with its stderr, no removal); decode
stdout (`err!` when not UTF-8, no removal); splice; remove both files with
`.ok()`, ignoring removal failures. -/
def comptime (env : ExprEnv) (b : CBlock) : ExprTrace :=
  let prog := renderBlock b
  match getArgValue env.args "--out-dir" with
  | none =>
    { created := [], removed := []
      exit := .emitError "comptime failed: could not determine rustc out dir." }
  | some outDir =>
    let comptime_rs := outDir ++ "/" ++ exprHelperName env.hash env.now prog
    if env.writeOk = false then
      { created := [], removed := []
        exit := .panicked "could not write comptime.rs" }
    else
      match merge_externs_table outDir env.args env.dirEntries with
      | Except.error msg =>
        { created := [comptime_rs], removed := [], exit := .panicked msg }
      | Except.ok _ =>
        if env.compileSpawnOk = false then
          { created := [comptime_rs], removed := []
            exit := .panicked "could not invoke rustc" }
        else if env.compileExitOk = false then
          { created := [comptime_rs], removed := []
            exit := .emitError ("could not compile comptime expr:\n\n"
              ++ env.compileStderr ++ "\n") }
        else
          let comptime_bin := outDir ++ "/comptime_bin"
            ++ extraFilenameOf env.args
          if env.runSpawnOk = false then
            { created := [comptime_rs, comptime_bin], removed := []
              exit := .panicked "could not invoke comptime_bin" }
          else if env.runExitOk = false then
            { created := [comptime_rs, comptime_bin], removed := []
              exit := .emitError ("could not run comptime expr:\n\n"
                ++ env.runStderr ++ "\n") }
          else
            match env.runStdout with
            | none =>
              { created := [comptime_rs, comptime_bin], removed := []
                exit := .emitError "comptime expr output was not utf8" }
            | some out =>
              { created := [comptime_rs, comptime_bin]
                removed := [comptime_rs, comptime_bin].filter env.removable
                exit := .success (spliceOutput out) }

/-! ## Demonstration inputs shared by the concrete evaluations -/

/-- A demonstration input function for the declaration form. -/
def demoFn : RustFn :=
  { attrs := ["#[inline]"], vis := "pub", sig := "fn the_answer() -> i32"
    body := ⟨[], CExpr.add (.intLit 1) (.intLit 1)⟩ }

/-- A healthy argument list: an out dir and an extra-filename
disambiguator. -/
def healthyArgs : List String :=
  ["rustc", "--out-dir", "t", "-C", "extra-filename=-abc123"]

/-- A declaration-form environment in which every stage succeeds. -/
def healthyEnv : DeclEnv :=
  { args := healthyArgs, now := 0, hash := demoHash
    createDirResult := .ok, openOk := true, writeOk := true
    compileSpawnOk := true, compileExitOk := true, compileStderr := ""
    runSpawnOk := true, runExitOk := true, runStderr := ""
    runStdout := some "2", removable := fun _ => true, dirEntries := [] }

/-- `healthyEnv`, except that the helper fails to compile. -/
def compileFailEnv : DeclEnv :=
  { healthyEnv with compileExitOk := false, compileStderr := "boom" }

/-- `healthyEnv`, except that `--out-dir` is missing. -/
def noOutDirEnv : DeclEnv :=
  { healthyEnv with args := ["rustc", "lib.rs"] }

/-! ## C3 — helper file naming -/

/-- C3 counterexample: two evaluations of the identical block `1 + 1` at
times 0 and 1.  The claim says the expression-form names must differ
(time-salted) and the declaration-form name is a content hash alone; the
code does the reverse: the expression-form names coincide and the
declaration-form names differ. -/
theorem helper_naming_counterexample :
    exprHelperName demoHash 0 "1 + 1" = exprHelperName demoHash 1 "1 + 1" ∧
    declHelperName demoHash 0 "1 + 1" ≠ declHelperName demoHash 1 "1 + 1" :=
  ⟨rfl, by decide⟩

/-- C3 amended: the salting is the reverse of the claim.  The
expression-form name is derived from a content hash alone — identical
blocks give identical names at any two times, and blocks whose content
hashes differ never collide — while the declaration-form name is derived
from the content hash combined with the time salt, so the identical block
at two times whose salted hashes differ gets different names. -/
theorem helper_naming_amended (h : List HashAtom → Nat) (t1 t2 : Nat)
    (p q : String)
    (hdecl : h [HashAtom.time t1, HashAtom.text p]
      ≠ h [HashAtom.time t2, HashAtom.text p])
    (hexpr : h [HashAtom.text p] ≠ h [HashAtom.text q]) :
    exprHelperName h t1 p = exprHelperName h t2 p ∧
    exprHelperName h t1 p ≠ exprHelperName h t2 q ∧
    declHelperName h t1 p ≠ declHelperName h t2 p :=
  ⟨rfl, wrapName_ne hexpr, wrapName_ne hdecl⟩

/-- Closed witness for `helper_naming_amended` at the demonstration
hasher, times 0 and 1, blocks `x` and `y + z`. -/
theorem helper_naming_amended_witness :
    exprHelperName demoHash 0 "x" = exprHelperName demoHash 1 "x" ∧
    exprHelperName demoHash 0 "x" ≠ exprHelperName demoHash 1 "y + z" ∧
    declHelperName demoHash 0 "x" ≠ declHelperName demoHash 1 "x" :=
  helper_naming_amended demoHash 0 1 "x" "y + z" (by decide) (by decide)

/-! ## C6 — missing out-dir flag -/

/-- C6 counterexample: with `--out-dir` absent but the filesystem healthy,
the declaration form does abort with the configuration error, but it has
already created the helper source file — the claim's "no helper files are
created" fails. -/
theorem missing_out_dir_counterexample :
    (comptime_impl noOutDirEnv demoFn).exit
      = DeclExit.panicked "comptime failed: could not determine rustc out dir." ∧
    (comptime_impl noOutDirEnv demoFn).created
      = [declHelperName demoHash 0 (renderBlock demoFn.body)] ∧
    (comptime_impl noOutDirEnv demoFn).created ≠ [] ∧
    (comptime_impl noOutDirEnv demoFn).removed = [] := by
  refine ⟨by decide, by decide, ?_, by decide⟩
  intro hcon
  rw [show (comptime_impl noOutDirEnv demoFn).created
    = [declHelperName demoHash 0 (renderBlock demoFn.body)] by decide] at hcon
  cases hcon

/-- C6 amended: both entry points abort with the fatal configuration
error, and the expression form creates no file first; but the declaration
form writes the helper source (and pushes nothing else) before it checks
the flag, so that file exists — and is not removed — when the error is
raised. -/
theorem missing_out_dir_amended
    (eenv : ExprEnv) (denv : DeclEnv) (b : CBlock) (f : RustFn)
    (he : getArgValue eenv.args "--out-dir" = none)
    (hd : getArgValue denv.args "--out-dir" = none)
    (hdir : denv.createDirResult ≠ FsResult.failed)
    (hopen : denv.openOk = true) (hwrite : denv.writeOk = true) :
    (comptime eenv b).exit
        = ExprExit.emitError "comptime failed: could not determine rustc out dir." ∧
    (comptime eenv b).created = [] ∧
    (comptime_impl denv f).exit
        = DeclExit.panicked "comptime failed: could not determine rustc out dir." ∧
    (comptime_impl denv f).created
        = [declHelperName denv.hash denv.now (renderBlock f.body)] ∧
    (comptime_impl denv f).removed = [] := by
  have h1 : comptime eenv b =
      { created := [], removed := []
        exit := .emitError "comptime failed: could not determine rustc out dir." } := by
    simp only [comptime, he]
  have h2 : comptime_impl denv f =
      { created := [declHelperName denv.hash denv.now (renderBlock f.body)]
        removed := []
        exit := .panicked "comptime failed: could not determine rustc out dir." } := by
    simp only [comptime_impl]
    rw [if_neg hdir, if_neg (by simp [hopen]), if_neg (by simp [hwrite]), hd]
  rw [h1, h2]
  exact ⟨rfl, rfl, rfl, rfl, rfl⟩

/-- An expression-form environment in which every stage succeeds except
that `--out-dir` is missing. -/
def noOutDirExprEnv : ExprEnv :=
  { args := ["rustc", "lib.rs"], now := 0, hash := demoHash
    writeOk := true, compileSpawnOk := true, compileExitOk := true
    compileStderr := "", runSpawnOk := true, runExitOk := true
    runStderr := "", runStdout := some "2"
    removable := fun _ => true, dirEntries := [] }

/-- Closed witness for `missing_out_dir_amended` at the demonstration
environments. -/
theorem missing_out_dir_amended_witness :
    (comptime noOutDirExprEnv ⟨[], CExpr.intLit 1⟩).exit
      = ExprExit.emitError "comptime failed: could not determine rustc out dir." ∧
    (comptime_impl noOutDirEnv demoFn).created
      = [declHelperName noOutDirEnv.hash noOutDirEnv.now
          (renderBlock demoFn.body)] := by
  have h := missing_out_dir_amended noOutDirExprEnv
    noOutDirEnv ⟨[], CExpr.intLit 1⟩ demoFn
    (by decide) (by decide) (by decide) (by decide) (by decide)
  exact ⟨h.1, h.2.2.2.1⟩

/-! ## C2 — cleanup on exit paths -/

/-- C2 counterexample: a declaration-form evaluation whose helper fails to
compile, with a perfectly healthy filesystem: the exit carries only the
compile diagnostic, the helper source this evaluation created is not
removed, and no cleanup diagnostic is raised — so not every exit path
removes the temporary files. -/
theorem cleanup_every_path_counterexample :
    (comptime_impl compileFailEnv demoFn).exit
      = DeclExit.panicked "could not compile comptime expr:\n\nboom\n" ∧
    (comptime_impl compileFailEnv demoFn).created
      = [declHelperName demoHash 0 (renderBlock demoFn.body)] ∧
    (comptime_impl compileFailEnv demoFn).removed = [] := by
  refine ⟨by decide, by decide, by decide⟩

/-- C2 amended: temporary-file removal is not uniform across exit paths.
In the declaration form, after a successful compile spawn: the
compile-failure exit and the run-failure exit remove nothing and report
only the evaluation error; the success exit attempts both removals but
ignores failures (it succeeds whatever `removable` says); and an early
failure path such as a run-spawn failure runs `cleanup`, which removes
what it can and panics with the distinct diagnostic listing every file
that failed to delete — that cleanup panic replaces the evaluation error.
In the expression form, the compile-failure exit likewise removes
nothing. -/
theorem cleanup_behaviour_amended
    (env : DeclEnv) (eenv : ExprEnv) (f : RustFn) (b : CBlock)
    (outDir : String) (t : DepTable)
    (hdir : env.createDirResult ≠ FsResult.failed)
    (hopen : env.openOk = true) (hwrite : env.writeOk = true)
    (hod : getArgValue env.args "--out-dir" = some outDir)
    (hm : merge_externs_table outDir env.args env.dirEntries = Except.ok t)
    (hcs : env.compileSpawnOk = true)
    (eoutDir : String) (et : DepTable)
    (ehod : getArgValue eenv.args "--out-dir" = some eoutDir)
    (ehw : eenv.writeOk = true)
    (ehm : merge_externs_table eoutDir eenv.args eenv.dirEntries
      = Except.ok et)
    (ehcs : eenv.compileSpawnOk = true)
    (ehce : eenv.compileExitOk = false) :
    (env.compileExitOk = false →
      (comptime_impl env f).removed = [] ∧
      (comptime_impl env f).exit = DeclExit.panicked
        ("could not compile comptime expr:\n\n" ++ env.compileStderr ++ "\n")) ∧
    (env.compileExitOk = true → env.runSpawnOk = true →
      env.runExitOk = false →
      (comptime_impl env f).removed = [] ∧
      (comptime_impl env f).exit = DeclExit.panicked
        ("could not run comptime expr:\n\n" ++ env.runStderr ++ "\n")) ∧
    (env.compileExitOk = true → env.runSpawnOk = true →
      env.runExitOk = true → ∀ out, env.runStdout = some out →
      (comptime_impl env f).removed
          = ((comptime_impl env f).created.filter env.removable) ∧
      ∃ o, (comptime_impl env f).exit = DeclExit.success o) ∧
    (env.compileExitOk = true → env.runSpawnOk = false →
      ∀ failed, failed = [declHelperName env.hash env.now (renderBlock f.body),
          outDir ++ "/comptime_bin" ++ extraFilenameOf env.args].filter
          (fun x => !(env.removable x)) →
      (failed.isEmpty = true →
        (comptime_impl env f).exit
          = DeclExit.panicked "Failed to execute bin file") ∧
      (failed.isEmpty = false →
        (comptime_impl env f).exit = DeclExit.cleanupPanicked failed)) ∧
    ((comptime eenv b).removed = [] ∧
      (comptime eenv b).exit = ExprExit.emitError
        ("could not compile comptime expr:\n\n" ++ eenv.compileStderr ++ "\n")) := by
  refine ⟨?_, ?_, ?_, ?_, ?_⟩
  · intro hce
    have h2 : comptime_impl env f =
        { created := [declHelperName env.hash env.now (renderBlock f.body)]
          removed := []
          exit := DeclExit.panicked ("could not compile comptime expr:\n\n"
            ++ env.compileStderr ++ "\n") } := by
      simp [comptime_impl, hdir, hopen, hwrite, hod, hm, hcs, hce]
    rw [h2]
    exact ⟨rfl, rfl⟩
  · intro hce hrs hre
    have h2 : comptime_impl env f =
        { created := [declHelperName env.hash env.now (renderBlock f.body),
            outDir ++ "/comptime_bin" ++ extraFilenameOf env.args]
          removed := []
          exit := DeclExit.panicked ("could not run comptime expr:\n\n"
            ++ env.runStderr ++ "\n") } := by
      simp [comptime_impl, hdir, hopen, hwrite, hod, hm, hcs, hce, hrs, hre]
    rw [h2]
    exact ⟨rfl, rfl⟩
  · intro hce hrs hre out hout
    have h2 : comptime_impl env f =
        { created := [declHelperName env.hash env.now (renderBlock f.body),
            outDir ++ "/comptime_bin" ++ extraFilenameOf env.args]
          removed := [declHelperName env.hash env.now (renderBlock f.body),
            outDir ++ "/comptime_bin" ++ extraFilenameOf env.args].filter
            env.removable
          exit := DeclExit.success ⟨f.attrs, f.vis, f.sig,
            spliceOutput out⟩ } := by
      simp [comptime_impl, hdir, hopen, hwrite, hod, hm, hcs, hce, hrs, hre,
        hout]
    rw [h2]
    exact ⟨rfl, ⟨_, rfl⟩⟩
  · intro hce hrs failed hfailed
    have h2 : comptime_impl env f =
        cleanupThenPanic env.removable
          [declHelperName env.hash env.now (renderBlock f.body),
            outDir ++ "/comptime_bin" ++ extraFilenameOf env.args]
          [declHelperName env.hash env.now (renderBlock f.body),
            outDir ++ "/comptime_bin" ++ extraFilenameOf env.args]
          "Failed to execute bin file" := by
      simp [comptime_impl, hdir, hopen, hwrite, hod, hm, hcs, hce, hrs]
    rw [h2, cleanupThenPanic]
    subst hfailed
    constructor
    · intro hemp
      simp only [hemp, if_true]
    · intro hemp
      simp only [hemp, Bool.false_eq_true, if_false]
  · have h1 : comptime eenv b =
        { created := [eoutDir ++ "/"
            ++ exprHelperName eenv.hash eenv.now (renderBlock b)]
          removed := []
          exit := ExprExit.emitError ("could not compile comptime expr:\n\n"
            ++ eenv.compileStderr ++ "\n") } := by
      simp [comptime, ehod, ehw, ehm, ehcs, ehce]
    rw [h1]
    exact ⟨rfl, rfl⟩

/-- An expression-form environment whose helper fails to compile. -/
def compileFailExprEnv : ExprEnv :=
  { args := healthyArgs, now := 0, hash := demoHash, writeOk := true
    compileSpawnOk := true, compileExitOk := false, compileStderr := "eboom"
    runSpawnOk := true, runExitOk := true, runStderr := ""
    runStdout := some "2", removable := fun _ => true, dirEntries := [] }

/-- Closed witness for `cleanup_behaviour_amended` at the demonstration
environments (declaration form healthy, expression form failing to
compile). -/
theorem cleanup_behaviour_amended_witness :
    ((comptime_impl healthyEnv demoFn).removed
        = ((comptime_impl healthyEnv demoFn).created.filter
            healthyEnv.removable) ∧
      ∃ o, (comptime_impl healthyEnv demoFn).exit = DeclExit.success o) ∧
    (comptime compileFailExprEnv ⟨[], CExpr.intLit 1⟩).removed = [] := by
  have h := cleanup_behaviour_amended healthyEnv compileFailExprEnv
    demoFn ⟨[], CExpr.intLit 1⟩ "t" [] (by decide) (by decide) (by decide)
    (by decide) (by decide) (by decide) "t" [] (by decide) (by decide)
    (by decide) (by decide) (by decide)
  exact ⟨h.2.2.1 (by decide) (by decide) (by decide) "2" (by decide),
    h.2.2.2.2.1⟩

/-! ## C8 — the declaration form preserves the function frame -/

/-- The expected output function of the demonstration evaluation. -/
def demoFnOut : RustFnOut :=
  { attrs := ["#[inline]"], vis := "pub", sig := "fn the_answer() -> i32"
    body := CExpr.intLit 2 }

lemma cleanupThenPanic_exit_ne_success (r : String → Bool)
    (c fs : List String) (m : String) (out : RustFnOut) :
    (cleanupThenPanic r c fs m).exit ≠ DeclExit.success out := by
  unfold cleanupThenPanic
  dsimp only
  split <;> simp

/-- C8: whenever a declaration-form evaluation succeeds, the output
function keeps the input function's attributes, visibility and signature,
and its body is exactly the spliced result expression of the helper's
output. -/
theorem comptime_fn_frame (env : DeclEnv) (f : RustFn) (out : RustFnOut)
    (h : (comptime_impl env f).exit = DeclExit.success out) :
    out.attrs = f.attrs ∧ out.vis = f.vis ∧ out.sig = f.sig ∧
      ∃ stdout, env.runStdout = some stdout ∧
        out.body = spliceOutput stdout := by
  unfold comptime_impl at h
  repeat' split at h
  all_goals
    first
    | exact absurd h (cleanupThenPanic_exit_ne_success _ _ _ _ _)
    | (simp only [DeclExit.success.injEq] at h
       subst h
       exact ⟨rfl, rfl, rfl, _, by assumption, rfl⟩)
    | simp at h

/-- Closed witness for `comptime_fn_frame`: a healthy evaluation of the
demonstration function. -/
theorem comptime_fn_frame_witness :
    demoFnOut.attrs = demoFn.attrs ∧ demoFnOut.vis = demoFn.vis ∧
    demoFnOut.sig = demoFn.sig ∧
    ∃ stdout, healthyEnv.runStdout = some stdout ∧
      demoFnOut.body = spliceOutput stdout :=
  comptime_fn_frame healthyEnv demoFn demoFnOut (by decide)

end Comptime
